import Mathlib

/-!
Verification development for the caddy-auth-saml plugin (Go sources
azure.go, plugin.go, ui.go).  The Go code is shallowly embedded: pure
control flow becomes Lean functions, `error` returns become
`Except String`, and external collaborators (the crewjam/saml parser,
dgrijalva/jwt-go HMAC signer, file/network I/O, template rendering)
are abstracted as explicit function parameters or record fields, with
each abstraction documented at its definition site.
-/

/-! ### String helpers mirroring the Go standard library -/

/-- Models Go `strings.HasSuffix(s, suffix)` on the character list of the
string. -/
def hasSuffix (s sfx : String) : Bool :=
  decide (sfx.data <:+ s.data)

/-- Models Go `strings.HasPrefix(s, p)` (used only for the `"http"` check in
`AzureIdp.Validate`). -/
def strStartsWith (s p : String) : Bool :=
  decide (p.data <+: s.data)

/-- Models Go `strings.Contains(s, sub)`. -/
def containsSub (s sub : String) : Bool :=
  decide (sub.data <:+: s.data)

/-- Digit-string value for `atoi` below; `none` on the empty string or any
non-digit character. -/
def digitsVal (cs : List Char) : Option Nat :=
  match cs with
  | [] => none
  | _ =>
    cs.foldl
      (fun acc c =>
        acc.bind fun n => if c.isDigit then some (n * 10 + (c.toNat - 48)) else none)
      (some 0)

/-- Models Go `strconv.Atoi` (`ParseInt(s, 10, 0)` with the 64-bit `int`):
optional leading sign followed by at least one digit; the empty string, a
bare sign, any non-digit character, and a value outside the two's-complement
64-bit range `[-2^63, 2^63-1]` are all errors (`none`) — in particular the
range error (`ErrRange`) makes azure.go skip the attribute just like a
non-numeric value does. -/
def atoi (s : String) : Option Int :=
  let parsed : Option Int :=
    match s.data with
    | '+' :: rest => (digitsVal rest).map Int.ofNat
    | '-' :: rest => (digitsVal rest).map (fun n => -(Int.ofNat n))
    | cs => (digitsVal cs).map Int.ofNat
  parsed.bind fun n => if -(2 ^ 63) ≤ n ∧ n < 2 ^ 63 then some n else none

/-! ### 64-bit duration arithmetic (Go `time`) -/

/-- Two's-complement wraparound to the signed 64-bit range, as performed by
every Go `int64` (hence `time.Duration`) arithmetic operation. -/
def wrapInt64 (x : Int) : Int :=
  (x + 2 ^ 63) % 2 ^ 64 - 2 ^ 63

/-- Models `time.Duration(n) * time.Second`: the nanosecond count
`n * 10^9` as a wrapping int64 (`time.Second` is `10^9` nanoseconds), so
multipliers above about `9.2e9` seconds overflow and wrap. -/
def durationOfSeconds (n : Int) : Int :=
  wrapInt64 (n * 1000000000)

/-- Models the Unix-seconds offset of `t.Add(d).Unix()` against `t.Unix()`
for a clock reading on a whole second (the embedding keeps one whole-second
clock `now` per request): `Time.Add` splits `d` nanoseconds into truncated
seconds plus a remainder and borrows one second when the remainder is
negative, which is exactly the floor of `d / 10^9`. -/
def durationAddSeconds (d : Int) : Int :=
  d / 1000000000

/-! ### Base64 (Go `encoding/base64` StdEncoding) -/

/-- Value of one base64 alphabet character, `none` for anything outside the
standard alphabet. -/
def b64Index (c : Char) : Option Nat :=
  if 'A' ≤ c ∧ c ≤ 'Z' then some (c.toNat - 65)
  else if 'a' ≤ c ∧ c ≤ 'z' then some (c.toNat - 97 + 26)
  else if '0' ≤ c ∧ c ≤ '9' then some (c.toNat - 48 + 52)
  else if c = '+' then some 62
  else if c = '/' then some 63
  else none

/-- Decodes base64 quantum groups of four characters into bytes (as `Nat`
values below 256); `'='` padding is allowed only at the end of the final
group, as in Go's `StdEncoding`. -/
def decodeGroups : List Char → Option (List Nat)
  | [] => some []
  | a :: b :: c :: d :: rest => do
    let x ← b64Index a
    let y ← b64Index b
    if c = '=' then
      if d = '=' ∧ rest = [] then some [x * 4 + y / 16] else none
    else do
      let z ← b64Index c
      if d = '=' then
        if rest = [] then some [x * 4 + y / 16, (y % 16) * 16 + z / 4] else none
      else do
        let w ← b64Index d
        let tail ← decodeGroups rest
        some ([x * 4 + y / 16, (y % 16) * 16 + z / 4, (z % 4) * 64 + w] ++ tail)
  | _ => none

/-- Models Go `base64.StdEncoding.DecodeString`: `\r`/`\n` are ignored, the
remaining length must be a multiple of four, and invalid characters or
misplaced padding are errors (`none`). -/
def base64Decode (s : String) : Option (List Nat) :=
  decodeGroups (s.data.filter (fun c => c ≠ '\r' ∧ c ≠ '\n'))

/-! ### Data model (crewjam/saml assertion types, caddyauth, configuration) -/

/-- crewjam/saml `AttributeValue` (only the `Value` field is read by
azure.go). -/
structure AttributeValue where
  Value : String
deriving DecidableEq

/-- crewjam/saml `Attribute`: a name plus an ordered list of values. -/
structure SamlAttribute where
  Name : String
  Values : List AttributeValue
deriving DecidableEq

/-- crewjam/saml `AttributeStatement`. -/
structure AttributeStatement where
  Attributes : List SamlAttribute
deriving DecidableEq

/-- crewjam/saml `Assertion`, restricted to the one field azure.go reads
(`AttributeStatements`). -/
structure Assertion where
  AttributeStatements : List AttributeStatement
deriving DecidableEq

/-- XML name used in the key-descriptor injection of `AzureIdp.Validate`. -/
structure XmlName where
  Space : String
  Local : String
deriving DecidableEq

/-- crewjam/saml `KeyInfo` (certificate holder). -/
structure KeyInfo where
  XMLName : XmlName
  Certificate : String
deriving DecidableEq

/-- crewjam/saml `KeyDescriptor`. -/
structure KeyDescriptor where
  Use : String
  KeyInfo : KeyInfo
deriving DecidableEq

/-- crewjam/saml `IDPSSODescriptor`, restricted to the key-descriptor list
azure.go appends to. -/
structure IDPSSODescriptor where
  KeyDescriptors : List KeyDescriptor
deriving DecidableEq

/-- crewjam/saml `EntityDescriptor` (IdP metadata), restricted to the fields
azure.go touches. -/
structure EntityDescriptor where
  EntityID : String
  IDPSSODescriptors : List IDPSSODescriptor
deriving DecidableEq

/-- crewjam/saml `ServiceProvider`, restricted to the fields azure.go
assigns, plus the externally implemented `ParseXMLResponse` method
(signature `([]byte, []string) → (*Assertion, error)`), abstracted as a
function field: its real behaviour (XML schema parsing and signature
verification against the binding's metadata and certificate) lives in the
external library, so the embedding quantifies over it.  Go URL values
(`url.URL`) are modelled as their source strings; azure.go ignores
`url.Parse` errors. -/
structure ServiceProvider where
  AcsURL : String
  MetadataURL : String
  AllowIDPInitiated : Bool
  IDPMetadata : EntityDescriptor
  ParseXMLResponse : List Nat → List String → Except String Assertion

/-- plugin.go `TokenParameters`. -/
structure TokenParameters where
  TokenName : String
  TokenSecret : String
  TokenIssuer : String
deriving DecidableEq

/-- The repository's `UserClaims` type is not among the provided source
files; its fields are reconstructed from their uses in azure.go
(`ExpiresAt`, `Name`, `Email`, `Origin`, `Subject`, `Roles`, `Issuer`) and
the spec's ClaimsRecord (§3).  `ExpiresAt` is the Unix timestamp (int64 in
Go, `Int` here). -/
structure UserClaims where
  ExpiresAt : Int
  Name : String
  Email : String
  Origin : String
  Subject : String
  Roles : List String
  Issuer : String
deriving DecidableEq

/-- caddyauth `User`: identity key plus metadata.  The Go `map[string]string`
literal of azure.go is modelled as an association list in the literal's
written order. -/
structure CaddyUser where
  ID : String
  Metadata : List (String × String)
deriving DecidableEq

/-- The slice of an inbound `*http.Request` that the two authentication
functions read.  `SAMLResponseForm` is the result of
`r.FormValue("SAMLResponse")`, which returns the empty string when the field
is absent (Go conflates absence with emptiness, and so does the model). -/
structure HttpRequest where
  Method : String
  ContentTypeHeader : String
  OriginHeader : String
  RefererHeader : String
  SAMLResponseForm : String
deriving DecidableEq

/-- ui.go `userInterfaceLink`. -/
structure UserInterfaceLink where
  Link : String
  Title : String
  Style : String
deriving DecidableEq

/-- ui.go `UserInterface` configuration.  The parsed `Template` field is
external (`text/template`) and is not carried in the model; template loading
is abstracted in the validation environment below. -/
structure UserInterface where
  TemplateLocation : String
  AllowRoleSelection : Bool
  Title : String
  LogoURL : String
  LogoDescription : String
  Links : List UserInterfaceLink
  AuthEndpoint : String
  LocalAuthEnabled : Bool
deriving DecidableEq

/-- ui.go `userInterfaceArgs`: the argument record handed to the template
render sink. -/
structure UserInterfaceArgs where
  Title : String
  LogoURL : String
  LogoDescription : String
  AuthEndpoint : String
  Message : String
  MessageType : String
  Links : List UserInterfaceLink
  LocalAuthEnabled : Bool
  Authenticated : Bool
deriving DecidableEq

/-- ui.go `newUserInterfaceArgs`: copies the configured presentation fields
and leaves `Message`, `MessageType` and `Authenticated` at their zero
values. -/
def UserInterface.newUserInterfaceArgs (ui : UserInterface) : UserInterfaceArgs :=
  { Title := ui.Title
    LogoURL := ui.LogoURL
    LogoDescription := ui.LogoDescription
    AuthEndpoint := ui.AuthEndpoint
    Message := ""
    MessageType := ""
    Links := ui.Links
    LocalAuthEnabled := ui.LocalAuthEnabled
    Authenticated := false }

/-- azure.go `AzureIdp`.  The embedded Go struct `CommonParameters`
(`AuthURLPath`, `SuccessURLPath`, `Jwt`) is flattened into the record; the
logger field is a side-effect sink and is dropped. -/
structure AzureIdp where
  AuthURLPath : String
  SuccessURLPath : String
  Jwt : TokenParameters
  Enabled : Bool
  ServiceProviders : List ServiceProvider
  IdpMetadataLocation : String
  IdpMetadataURL : Option String
  IdpSignCertLocation : String
  TenantID : String
  ApplicationID : String
  ApplicationName : String
  LoginURL : String
  EntityID : String
  AssertionConsumerServiceURLs : List String

/-- plugin.go `AuthProvider`; `CommonParameters` flattened as in `AzureIdp`,
logger and the transient `idpProviderCount` dropped (the count is local to
`Validate` and is modelled there). -/
structure AuthProvider where
  Name : String
  AuthURLPath : String
  SuccessURLPath : String
  Jwt : TokenParameters
  Azure : Option AzureIdp
  UI : UserInterface

/-! ### Token signing (dgrijalva/jwt-go, external) -/

/-- Abstract stand-in for the compact serialized JWT produced by
`jwt.NewWithClaims(jwt.SigningMethodHS512, claims).SignedString([]byte(secret))`:
an injective-enough encoding of the claims together with the HMAC key that
was used.  The cryptographic content of the real token is irrelevant to the
claims being checked; what matters is which claims and which key reach the
signer. -/
def hs512Token (c : UserClaims) (secret : String) : String :=
  String.intercalate "|"
    [toString c.ExpiresAt, c.Name, c.Email, c.Origin, c.Subject,
      String.intercalate "," c.Roles, c.Issuer, secret]

/-- Models `token.SignedString([]byte(az.Jwt.TokenSecret))` from
dgrijalva/jwt-go: for an HMAC signing method and a `[]byte` key the library
computes the MAC and returns it without any possibility of failure — in
particular an empty `[]byte("")` key is accepted and used as-is.  The
`Except` shape mirrors the Go `(string, error)` return that azure.go checks. -/
def jwtSignedString (c : UserClaims) (secret : String) : Except String String :=
  Except.ok (hs512Token c secret)

/-! ### Claims mapper (azure.go lines 73-121) -/

/-- Go `fmt` rendering of a `UserClaims` value (`%v`), used inside two error
messages of azure.go.  The exact layout is immaterial to every claim; the
model renders the fields space-separated inside braces like Go does. -/
def claimsFmt (c : UserClaims) : String :=
  "\x7b" ++
    String.intercalate " "
      [toString c.ExpiresAt, c.Name, c.Email, c.Origin, c.Subject,
        "[" ++ String.intercalate " " c.Roles ++ "]", c.Issuer] ++
  "\x7d"

/-- The claims value at the top of the per-binding loop body: a zero
`UserClaims` whose `ExpiresAt` is immediately set to `now + 900` seconds
(azure.go lines 73-74; `time.Duration(900) * time.Second` is far below the
int64 overflow threshold, so the constant duration is exactly 900 seconds).
`now` stands for `time.Now().Unix()`; the model uses one clock reading for
the whole request. -/
def initClaims (now : Int) : UserClaims :=
  { ExpiresAt := now + 900
    Name := ""
    Email := ""
    Origin := ""
    Subject := ""
    Roles := []
    Issuer := "" }

/-- One iteration of the inner attribute loop (azure.go lines 77-120): skip
attributes with no values, then run the suffix-matched `if`/`continue` chain.
A `MaxSessionDuration` value that fails `strconv.Atoi` is logged and skipped
(the claims are returned unchanged). -/
def applyAttribute (now : Int) (claims : UserClaims) (attr : SamlAttribute) : UserClaims :=
  match attr.Values with
  | [] => claims
  | v :: _ =>
    if hasSuffix attr.Name "Attributes/MaxSessionDuration" then
      match atoi v.Value with
      | none => claims
      | some n =>
        { claims with ExpiresAt := now + durationAddSeconds (durationOfSeconds n) }
    else if hasSuffix attr.Name "identity/claims/displayname" then
      { claims with Name := v.Value }
    else if hasSuffix attr.Name "identity/claims/emailaddress" then
      { claims with Email := v.Value }
    else if hasSuffix attr.Name "identity/claims/identityprovider" then
      { claims with Origin := v.Value }
    else if hasSuffix attr.Name "identity/claims/name" then
      { claims with Subject := v.Value }
    else if hasSuffix attr.Name "Attributes/Role" then
      { claims with Roles := claims.Roles ++ attr.Values.map (fun w => w.Value) }
    else claims

/-- The nested attribute-statement scan of azure.go lines 76-121. -/
def buildClaims (now : Int) (a : Assertion) : UserClaims :=
  a.AttributeStatements.foldl
    (fun c st => st.Attributes.foldl (applyAttribute now) c)
    (initClaims now)

/-! ### Per-binding pipeline and the binding scan (azure.go lines 65-148) -/

/-- The body of the binding loop after a successful `ParseXMLResponse`
(azure.go lines 73-145): build the claims, enforce the mandatory email/name
attributes, apply the configured token issuer, build the caddyauth user and
sign the token. -/
def processAssertion (az : AzureIdp) (now : Int) (a : Assertion) :
    Except String (CaddyUser × String) :=
  let claims := buildClaims now a
  if claims.Email = "" ∨ claims.Name = "" then
    Except.error
      ("The Azure AD authorization failed, mandatory attributes not found: " ++
        claimsFmt claims)
  else
    let claims :=
      if az.Jwt.TokenIssuer ≠ "" then { claims with Issuer := az.Jwt.TokenIssuer }
      else claims
    let user : CaddyUser :=
      { ID := claims.Email
        Metadata :=
          [("name", claims.Name), ("email", claims.Email),
            ("roles", String.intercalate " " claims.Roles)] }
    match jwtSignedString claims az.Jwt.TokenSecret with
    | Except.error e =>
      Except.error
        ("Failed to issue JWT token with " ++ claimsFmt claims ++ " claims: " ++ e)
    | Except.ok validToken => Except.ok (user, validToken)

/-- The `for _, sp := range az.ServiceProviders` scan (azure.go lines 65-147):
each binding's parse error is accumulated and the next binding is tried; the
first successful parse runs the rest of the pipeline and its result is
returned without consulting any later binding. -/
def authLoop (az : AzureIdp) (now : Int) (raw : List Nat) :
    List ServiceProvider → List String → Except String (CaddyUser × String)
  | [], spErrors =>
    Except.error
      ("The Azure AD validation failures: " ++ String.intercalate ", " spErrors)
  | sp :: rest, spErrors =>
    match sp.ParseXMLResponse raw [""] with
    | Except.error e => authLoop az now raw rest (spErrors ++ [e])
    | Except.ok assertion => processAssertion az now assertion

/-- azure.go error text for a wrong request content type (line 55). -/
def msgWrongContentType : String :=
  "The Azure AD authorization POST request is not application/x-www-form-urlencoded"

/-- azure.go error text for a missing `SAMLResponse` form field (line 58). -/
def msgNoSAMLResponse : String :=
  "The Azure AD authorization POST request has no SAMLResponse"

/-- azure.go `AzureIdp.Authenticate` (lines 53-148).  The Go error message
for a base64 failure interpolates the library error; the model keeps the
fixed text (no claim depends on that message). -/
def AzureIdp.Authenticate (az : AzureIdp) (now : Int) (r : HttpRequest) :
    Except String (CaddyUser × String) :=
  if r.ContentTypeHeader ≠ "application/x-www-form-urlencoded" then
    Except.error msgWrongContentType
  else if r.SAMLResponseForm = "" then
    Except.error msgNoSAMLResponse
  else
    match base64Decode r.SAMLResponseForm with
    | none =>
      Except.error
        "The Azure AD authorization POST request with SAMLResponse failed base64 decoding"
    | some raw => authLoop az now raw az.ServiceProviders []

/-! ### Configuration validation (azure.go lines 151-284, plugin.go 61-129) -/

/-- samlsp `Options` (URL + IDPMetadata), the two fields azure.go sets. -/
structure SPOptions where
  URL : String
  IDPMetadata : EntityDescriptor

/-- The I/O and external-library surface used during configuration
validation, abstracted as an environment of oracles: certificate/file
reading, metadata fetching/parsing, `samlsp.DefaultServiceProvider`,
`os.Getenv`, and the text/template loading of ui.go (its result value, the
parsed template, is not carried in the model). -/
structure ValidateEnv where
  readCertFile : String → Except String String
  fetchMetadata : String → Except String EntityDescriptor
  readFile : String → Except String String
  parseMetadata : String → Except String EntityDescriptor
  defaultServiceProvider : SPOptions → ServiceProvider
  getenv : String → String
  loadTemplates : UserInterface → Except String Unit

/-- The default Azure IdP metadata location (azure.go lines 183-186). -/
def defaultMetadataLocation (tenantID : String) : String :=
  "https://login.microsoftonline.com/" ++ tenantID ++
    "/federationmetadata/2007-06/federationmetadata.xml"

/-- The derived Azure login URL (azure.go lines 208-211). -/
def azureLoginURL (appName appID tenantID : String) : String :=
  "https://account.activedirectory.windowsazure.com/applications/signin/" ++
    appName ++ "/" ++ appID ++ "?tenantId=" ++ tenantID

/-- One pass of the key-descriptor injection loop (azure.go lines 265-279):
the loop `break`s after the first `IDPSSODescriptor`, so only the head
descriptor receives the signing-certificate key descriptor. -/
def injectCert (md : EntityDescriptor) (cert : String) : EntityDescriptor :=
  match md.IDPSSODescriptors with
  | [] => md
  | d :: rest =>
    { md with
        IDPSSODescriptors :=
          { d with
              KeyDescriptors :=
                d.KeyDescriptors ++
                  [{ Use := "signing"
                     KeyInfo :=
                       { XMLName :=
                           { Space := "http://www.w3.org/2000/09/xmldsig#"
                             Local := "KeyInfo" }
                         Certificate := cert } }] }
            :: rest }

/-- In Go the metadata object is shared by pointer between the options and
every constructed service provider, and the injection loop body runs once
per configured ACS URL; the final shared metadata therefore carries one
appended key descriptor per ACS URL. -/
def injectCertTimes (md : EntityDescriptor) (cert : String) : Nat → EntityDescriptor
  | 0 => md
  | n + 1 => injectCertTimes (injectCert md cert) cert n

/-- The per-ACS-URL service-provider construction (azure.go lines 251-281):
`DefaultServiceProvider` result, `AllowIDPInitiated` set, `AcsURL` set,
`MetadataURL` first assigned the parsed `EntityID` and then unconditionally
overwritten with the IdP metadata URL whenever one was recorded.
`md` is the final shared metadata object (see `injectCertTimes`). -/
def buildSP (base : ServiceProvider) (az : AzureIdp) (acsURL : String)
    (md : EntityDescriptor) : ServiceProvider :=
  let sp := { base with AllowIDPInitiated := true }
  let sp := { sp with AcsURL := acsURL }
  let sp := { sp with MetadataURL := az.EntityID }
  let sp :=
    match az.IdpMetadataURL with
    | some u => { sp with MetadataURL := u }
    | none => sp
  { sp with IDPMetadata := md }

/-- azure.go `AzureIdp.Validate` (lines 151-284) over the oracle
environment.  Logging calls are dropped; `url.Parse` is modelled as the
identity on strings (azure.go discards its error). -/
def AzureIdp.Validate (env : ValidateEnv) (az : AzureIdp) : Except String AzureIdp :=
  if az.AssertionConsumerServiceURLs.length = 0 then
    Except.error "ACS URLs are missing"
  else if az.TenantID = "" then Except.error "Azure AD Tenant ID not found"
  else if az.ApplicationID = "" then Except.error "Azure AD Application ID not found"
  else if az.ApplicationName = "" then Except.error "Azure AD Application Name not found"
  else
    let az :=
      if az.IdpMetadataLocation = "" then
        { az with IdpMetadataLocation := defaultMetadataLocation az.TenantID }
      else az
    if az.IdpSignCertLocation = "" then
      Except.error "Azure AD IdP Signing Certificate not found"
    else
      match env.readCertFile az.IdpSignCertLocation with
      | Except.error e => Except.error e
      | Except.ok idpSignCert =>
        let az :=
          { az with
              LoginURL := azureLoginURL az.ApplicationName az.ApplicationID az.TenantID }
        let metadataStep : Except String (AzureIdp × SPOptions) :=
          if strStartsWith az.IdpMetadataLocation "http" then
            match env.fetchMetadata az.IdpMetadataLocation with
            | Except.error e => Except.error e
            | Except.ok md =>
              Except.ok
                ({ az with IdpMetadataURL := some az.IdpMetadataLocation },
                  { URL := az.IdpMetadataLocation, IDPMetadata := md })
          else
            match env.readFile az.IdpMetadataLocation with
            | Except.error e => Except.error e
            | Except.ok content =>
              match env.parseMetadata content with
              | Except.error e => Except.error e
              | Except.ok md => Except.ok (az, { URL := "", IDPMetadata := md })
        match metadataStep with
        | Except.error e => Except.error e
        | Except.ok (az, options) =>
          let mdFinal :=
            injectCertTimes options.IDPMetadata idpSignCert
              az.AssertionConsumerServiceURLs.length
          let base := env.defaultServiceProvider options
          Except.ok
            { az with
                ServiceProviders :=
                  az.ServiceProviders ++
                    az.AssertionConsumerServiceURLs.map
                      (fun acsURL => buildSP base az acsURL mdFinal) }

/-- ui.go `validate` (lines 337-345): load the templates (external, via the
environment oracle) and default the title. -/
def UserInterface.validate (env : ValidateEnv) (ui : UserInterface) :
    Except String UserInterface :=
  match env.loadTemplates ui with
  | Except.error e => Except.error e
  | Except.ok _ =>
    Except.ok (if ui.Title = "" then { ui with Title := "Sign In" } else ui)

/-- plugin.go `AuthProvider.Validate` (lines 61-129): endpoint check, token
name default, the token-secret check against the `JWT_TOKEN_SECRET`
environment variable, issuer default, Azure sub-validation (with the
provider-level JWT parameters copied onto the Azure configuration first),
the IdP count check, UI validation and the login link. -/
def AuthProvider.Validate (env : ValidateEnv) (m : AuthProvider) :
    Except String AuthProvider :=
  if m.AuthURLPath = "" then
    Except.error
      (m.Name ++ ": authentication endpoint cannot be empty, try setting auth_url_path to /saml")
  else
    let m :=
      if m.Jwt.TokenName = "" then
        { m with Jwt := { m.Jwt with TokenName := "JWT_TOKEN" } }
      else m
    if m.Jwt.TokenSecret = "" ∧ env.getenv "JWT_TOKEN_SECRET" = "" then
      Except.error
        (m.Name ++
          ": jwt_token_secret must be defined either via JWT_TOKEN_SECRET environment variable or via jwt.token_secret configuration element")
    else
      let m :=
        if m.Jwt.TokenIssuer = "" then
          { m with Jwt := { m.Jwt with TokenIssuer := "localhost" } }
        else m
      match m.Azure with
      | none => Except.error (m.Name ++ ": no valid IdP configuration found")
      | some az =>
        match AzureIdp.Validate env { az with Jwt := m.Jwt } with
        | Except.error e => Except.error (m.Name ++ ": " ++ e)
        | Except.ok az' =>
          let m := { m with Azure := some az' }
          match UserInterface.validate env m.UI with
          | Except.error e =>
            Except.error (m.Name ++ ": UI settings validation error: " ++ e)
          | Except.ok ui =>
            let ui := { ui with AuthEndpoint := m.AuthURLPath }
            let ui :=
              { ui with
                  Links :=
                    ui.Links ++
                      [{ Link := az'.LoginURL, Title := "Office 365", Style := "fa-windows" }] }
            Except.ok { m with UI := ui }

/-! ### Authentication orchestrator (plugin.go lines 132-181) -/

/-- What `AuthProvider.Authenticate` observably does for one request: the
argument record handed to the always-executed template render, the
caddyauth result pair, and the response headers it sets.  The Go error
component of the triple is `nil` on every path (`failAzureAuthentication`
is called with `nil`), so it is not carried. -/
structure AuthDecision where
  rendered : UserInterfaceArgs
  user : CaddyUser
  ok : Bool
  authorizationHeader : Option String
  wwwAuthenticateHeader : Option String
deriving DecidableEq

/-- plugin.go `AuthProvider.Authenticate` (lines 132-176): only a POST whose
Origin contains `login.microsoftonline.com` or whose Referer contains
`windowsazure.com` reaches the Azure authentication call; every other
request renders the untouched UI arguments and is rejected with the fixed
`WWW-Authenticate: Bearer` challenge.  A `none` result models the nil
pointer dereference that would occur if the eligible branch were reached
with no Azure configuration (`Validate` rules that configuration out). -/
def AuthProvider.Authenticate (m : AuthProvider) (now : Int) (r : HttpRequest) :
    Option AuthDecision :=
  let uiArgs := m.UI.newUserInterfaceArgs
  if r.Method = "POST" ∧
      (containsSub r.OriginHeader "login.microsoftonline.com" ∨
        containsSub r.RefererHeader "windowsazure.com") then
    match m.Azure with
    | none => none
    | some az =>
      match az.Authenticate now r with
      | Except.error e =>
        some
          { rendered := { uiArgs with Message := e }
            user := { ID := "", Metadata := [] }
            ok := false
            authorizationHeader := none
            wwwAuthenticateHeader := some "Bearer" }
      | Except.ok (u, tok) =>
        some
          { rendered := { uiArgs with Authenticated := true }
            user := u
            ok := true
            authorizationHeader := some ("Bearer " ++ tok)
            wwwAuthenticateHeader := none }
  else
    some
      { rendered := uiArgs
        user := { ID := "", Metadata := [] }
        ok := false
        authorizationHeader := none
        wwwAuthenticateHeader := some "Bearer" }

/-! ### Concrete fixtures used by witnesses and counterexamples -/

/-- A minimal IdP metadata value with one SSO descriptor. -/
def mdFix : EntityDescriptor :=
  { EntityID := "https://sts.windows.net/tenant/"
    IDPSSODescriptors := [{ KeyDescriptors := [] }] }

/-- A parsed assertion carrying email, display name and two roles. -/
def assertionOk : Assertion :=
  { AttributeStatements :=
      [{ Attributes :=
          [{ Name := "http://schemas.xmlsoap.org/ws/2005/05/identity/claims/emailaddress"
             Values := [{ Value := "a@b.com" }] },
           { Name := "http://schemas.xmlsoap.org/ws/2005/05/identity/claims/displayname"
             Values := [{ Value := "Jane" }] },
           { Name := "http://schemas.microsoft.com/ws/2008/06/identity/claims/Attributes/Role"
             Values := [{ Value := "admin" }, { Value := "user" }] }] }] }

/-- A binding whose external parse/signature validation accepts the response
and yields `assertionOk`. -/
def spOkFix : ServiceProvider :=
  { AcsURL := "https://app.domain.local/saml"
    MetadataURL := ""
    AllowIDPInitiated := true
    IDPMetadata := mdFix
    ParseXMLResponse := fun _ _ => Except.ok assertionOk }

/-- A binding whose parse/signature validation rejects every response. -/
def spFail1Fix : ServiceProvider :=
  { spOkFix with ParseXMLResponse := fun _ _ => Except.error "binding one: bad signature" }

/-- A second always-rejecting binding with a distinct error. -/
def spFail2Fix : ServiceProvider :=
  { spOkFix with ParseXMLResponse := fun _ _ => Except.error "binding two: audience mismatch" }

/-- An Azure configuration with a failing first binding and a succeeding
second binding. -/
def azFix : AzureIdp :=
  { AuthURLPath := "/saml"
    SuccessURLPath := ""
    Jwt := { TokenName := "JWT_TOKEN", TokenSecret := "sek", TokenIssuer := "localhost" }
    Enabled := true
    ServiceProviders := [spFail1Fix, spOkFix]
    IdpMetadataLocation := "https://idp.example.com/md.xml"
    IdpMetadataURL := none
    IdpSignCertLocation := "/etc/cert.pem"
    TenantID := "tenant"
    ApplicationID := "appid"
    ApplicationName := "appname"
    LoginURL := ""
    EntityID := ""
    AssertionConsumerServiceURLs := ["https://app.domain.local/saml"] }

/-- The same configuration with both bindings failing. -/
def azAllFailFix : AzureIdp :=
  { azFix with ServiceProviders := [spFail1Fix, spFail2Fix] }

/-- The same configuration with an empty token secret and only the accepting
binding registered. -/
def azEmptySecretFix : AzureIdp :=
  { azFix with
      Jwt := { TokenName := "JWT_TOKEN", TokenSecret := "", TokenIssuer := "localhost" }
      ServiceProviders := [spOkFix] }

/-- An IdP-initiated POST request carrying a decodable SAMLResponse
(`"QQ=="` decodes to the byte 65). -/
def reqFix : HttpRequest :=
  { Method := "POST"
    ContentTypeHeader := "application/x-www-form-urlencoded"
    OriginHeader := "https://login.microsoftonline.com/"
    RefererHeader := ""
    SAMLResponseForm := "QQ==" }

/-- The same request with a non-form content type. -/
def reqBadCTFix : HttpRequest :=
  { reqFix with ContentTypeHeader := "text/plain" }

/-- A POST request from an origin that is not the identity provider. -/
def reqWrongOriginFix : HttpRequest :=
  { reqFix with OriginHeader := "https://evil.example.com", RefererHeader := "https://evil.example.com" }

/-- A default UI configuration. -/
def uiFix : UserInterface :=
  { TemplateLocation := ""
    AllowRoleSelection := false
    Title := "Sign In"
    LogoURL := ""
    LogoDescription := ""
    Links := []
    AuthEndpoint := ""
    LocalAuthEnabled := false }

/-- A provider wrapping `azFix`. -/
def mFix : AuthProvider :=
  { Name := "saml"
    AuthURLPath := "/saml"
    SuccessURLPath := ""
    Jwt := azFix.Jwt
    Azure := some azFix
    UI := uiFix }

/-- A concrete oracle environment in which every I/O step succeeds. -/
def envFix : ValidateEnv :=
  { readCertFile := fun _ => Except.ok "CERTDATA"
    fetchMetadata := fun _ => Except.ok mdFix
    readFile := fun _ => Except.ok "<metadata/>"
    parseMetadata := fun _ => Except.ok mdFix
    defaultServiceProvider := fun opts =>
      { AcsURL := ""
        MetadataURL := ""
        AllowIDPInitiated := false
        IDPMetadata := opts.IDPMetadata
        ParseXMLResponse := fun _ _ => Except.error "unconfigured" }
    getenv := fun k => if k = "JWT_TOKEN_SECRET" then "env-secret" else ""
    loadTemplates := fun _ => Except.ok () }

/-- An Azure configuration (pre-validation) with an explicitly configured
entity ID and an HTTP metadata location. -/
def azEntityFix : AzureIdp :=
  { azFix with
      ServiceProviders := []
      EntityID := "https://sp.example.com"
      IdpMetadataLocation := "https://idp.example.com/md.xml" }

/-- A provider configuration (pre-validation) whose token secret is empty. -/
def mEnvSecretFix : AuthProvider :=
  { mFix with
      Jwt := { TokenName := "", TokenSecret := "", TokenIssuer := "" }
      Azure := some { azEntityFix with Jwt := { TokenName := "", TokenSecret := "", TokenIssuer := "" } } }

/-- The provider produced by validating `mEnvSecretFix` in `envFix` (the
fallback branch is never taken; see the theorem on C9). -/
def mEnvSecretOk : AuthProvider :=
  match AuthProvider.Validate envFix mEnvSecretFix with
  | Except.ok m => m
  | Except.error _ => mEnvSecretFix

/-! ### Statement-side definitions and remaining fixtures -/

/-- The effect of one attribute on the pending session-duration override:
`some n` records the last numeric `MaxSessionDuration` seen so far. -/
def msdUpdate (acc : Option Int) (attr : SamlAttribute) : Option Int :=
  match attr.Values with
  | [] => acc
  | v :: _ =>
    if hasSuffix attr.Name "Attributes/MaxSessionDuration" then
      match atoi v.Value with
      | some n => some n
      | none => acc
    else acc

/-- All attributes of an assertion in scan order (statements in order, then
attributes in order). -/
def allAttrs (a : Assertion) : List SamlAttribute :=
  (a.AttributeStatements.map (fun st => st.Attributes)).flatten

/-- The Unix-seconds expiry offset azure.go computes from a recorded
`MaxSessionDuration` multiplier `n`:
`time.Now().Add(time.Duration(n) * time.Second).Unix() - time.Now().Unix()`,
i.e. the wrapped int64 nanosecond duration floored to seconds.  It equals
`n` exactly when `|n| ≤ 9223372036` (no int64 overflow). -/
def msdOffset (n : Int) : Int :=
  durationAddSeconds (durationOfSeconds n)

/-- A single-attribute assertion carrying `MaxSessionDuration = 3600`. -/
def assertionMSD : Assertion :=
  { AttributeStatements :=
      [{ Attributes :=
          [{ Name := "http://x/Attributes/MaxSessionDuration"
             Values := [{ Value := "3600" }] }] }] }

/-- A single-attribute assertion with `MaxSessionDuration = 10^10`: numeric
and within int64 range, but `10^10 * 10^9` nanoseconds overflows int64. -/
def assertionMSDHuge : Assertion :=
  { AttributeStatements :=
      [{ Attributes :=
          [{ Name := "http://x/Attributes/MaxSessionDuration"
             Values := [{ Value := "10000000000" }] }] }] }

/-- A single-attribute assertion with `MaxSessionDuration = 2^63`, one past
the int64 maximum, where `strconv.Atoi` fails with a range error. -/
def assertionMSDRange : Assertion :=
  { AttributeStatements :=
      [{ Attributes :=
          [{ Name := "http://x/Attributes/MaxSessionDuration"
             Values := [{ Value := "9223372036854775808" }] }] }] }

/-- An assertion with a display name but no email address. -/
def assertionNoEmail : Assertion :=
  { AttributeStatements :=
      [{ Attributes :=
          [{ Name := "http://schemas.xmlsoap.org/ws/2005/05/identity/claims/displayname"
             Values := [{ Value := "Jane" }] },
           { Name := "http://schemas.microsoft.com/ws/2008/06/identity/claims/Attributes/Role"
             Values := [{ Value := "admin" }] }] }] }

/-- The five attribute suffixes whose claims use only the first value. -/
def singleValuedSuffixes : List String :=
  ["Attributes/MaxSessionDuration", "identity/claims/displayname",
    "identity/claims/emailaddress", "identity/claims/identityprovider",
    "identity/claims/name"]

/-- Go's zero `ServiceProvider` value, used only as the `Inhabited` default
for list-head extraction in witnesses. -/
instance : Inhabited ServiceProvider :=
  ⟨{ AcsURL := ""
     MetadataURL := ""
     AllowIDPInitiated := false
     IDPMetadata := { EntityID := "", IDPSSODescriptors := [] }
     ParseXMLResponse := fun _ _ => Except.error "" }⟩

/-- The Azure configuration produced by a successful validation of
`azEntityFix` (the fallback branch is never taken). -/
def azEntityOk : AzureIdp :=
  match AzureIdp.Validate envFix azEntityFix with
  | Except.ok a => a
  | Except.error _ => azEntityFix

/-! ### Helper lemmas about the binding scan -/

theorem authLoop_skip_failures (az : AzureIdp) (now : Int) (raw : List Nat)
    (sps2 : List ServiceProvider) (sp : ServiceProvider) (a : Assertion)
    (hok : sp.ParseXMLResponse raw [""] = Except.ok a) :
    ∀ (sps1 : List ServiceProvider) (errs : List String),
      (∀ sp' ∈ sps1, ∃ e, sp'.ParseXMLResponse raw [""] = Except.error e) →
      authLoop az now raw (sps1 ++ sp :: sps2) errs = processAssertion az now a := by
  intro sps1
  induction sps1 with
  | nil =>
    intro errs _
    simp only [List.nil_append, authLoop, hok]
  | cons hd tl ih =>
    intro errs hfail
    obtain ⟨e, he⟩ := hfail hd (by simp)
    simp only [List.cons_append, authLoop, he]
    exact ih (errs ++ [e]) (fun sp' h => hfail sp' (by simp [h]))

theorem authLoop_all_fail (az : AzureIdp) (now : Int) (raw : List Nat) :
    ∀ (sps : List ServiceProvider) (errs acc : List String),
      List.Forall₂ (fun sp e => sp.ParseXMLResponse raw [""] = Except.error e) sps errs →
      authLoop az now raw sps acc =
        Except.error
          ("The Azure AD validation failures: " ++ String.intercalate ", " (acc ++ errs)) := by
  intro sps errs acc h
  induction h generalizing acc with
  | nil => simp [authLoop]
  | cons hpe _ ih =>
    simp only [authLoop, hpe]
    rw [ih (acc ++ [_])]
    simp

/-- C1: for every decoded SAML response, the registered service-provider
bindings are tried in registration order; the first binding whose parse and
signature validation succeeds wins, its parsed assertion is processed
immediately, and no later binding influences the result (the conclusion
holds for every suffix `sps2` of later bindings).  In particular a response
rejected by earlier bindings but accepted by a later one is still processed
from the later binding's assertion. -/
theorem first_successful_binding_wins (az : AzureIdp) (now : Int) (r : HttpRequest)
    (raw : List Nat) (sps1 sps2 : List ServiceProvider) (sp : ServiceProvider)
    (a : Assertion)
    (hct : r.ContentTypeHeader = "application/x-www-form-urlencoded")
    (hsr : r.SAMLResponseForm ≠ "")
    (hdec : base64Decode r.SAMLResponseForm = some raw)
    (hsps : az.ServiceProviders = sps1 ++ sp :: sps2)
    (hfail : ∀ sp' ∈ sps1, ∃ e, sp'.ParseXMLResponse raw [""] = Except.error e)
    (hok : sp.ParseXMLResponse raw [""] = Except.ok a) :
    az.Authenticate now r = processAssertion az now a := by
  unfold AzureIdp.Authenticate
  rw [if_neg (by simp [hct]), if_neg (by simp [hsr]), hdec, hsps]
  exact authLoop_skip_failures az now raw sps2 sp a hok sps1 [] hfail

/-- Witness for C1: with `azFix`, whose first binding rejects every response
and whose second binding accepts it, authentication still succeeds and uses
the second binding's assertion. -/
theorem first_successful_binding_wins_witness :
    azFix.Authenticate 0 reqFix = processAssertion azFix 0 assertionOk ∧
    processAssertion azFix 0 assertionOk =
      Except.ok
        ({ ID := "a@b.com"
           Metadata := [("name", "Jane"), ("email", "a@b.com"), ("roles", "admin user")] },
          hs512Token
            { ExpiresAt := 900, Name := "Jane", Email := "a@b.com", Origin := ""
              Subject := "", Roles := ["admin", "user"], Issuer := "localhost" } "sek") := by
  constructor
  · refine first_successful_binding_wins azFix 0 reqFix [65] [spFail1Fix] [] spOkFix
      assertionOk rfl (by decide) rfl rfl ?_ rfl
    intro sp' h
    simp only [List.mem_singleton] at h
    subst h
    exact ⟨"binding one: bad signature", rfl⟩
  · rfl

/-- C2: when every registered binding fails to validate the decoded
response, `Authenticate` returns the aggregated validation error whose
message joins each binding's individual error message once, in registration
order. -/
theorem all_bindings_fail_error_aggregated (az : AzureIdp) (now : Int)
    (r : HttpRequest) (raw : List Nat) (errs : List String)
    (hct : r.ContentTypeHeader = "application/x-www-form-urlencoded")
    (hsr : r.SAMLResponseForm ≠ "")
    (hdec : base64Decode r.SAMLResponseForm = some raw)
    (hfail :
      List.Forall₂ (fun sp e => sp.ParseXMLResponse raw [""] = Except.error e)
        az.ServiceProviders errs) :
    az.Authenticate now r =
      Except.error
        ("The Azure AD validation failures: " ++ String.intercalate ", " errs) := by
  unfold AzureIdp.Authenticate
  rw [if_neg (by simp [hct]), if_neg (by simp [hsr]), hdec]
  simpa using authLoop_all_fail az now raw az.ServiceProviders errs [] hfail

/-- Witness for C2: with both bindings of `azAllFailFix` failing, the error
aggregates both messages, joined in order. -/
theorem all_bindings_fail_error_aggregated_witness :
    azAllFailFix.Authenticate 0 reqFix =
      Except.error
        ("The Azure AD validation failures: " ++
          "binding one: bad signature, binding two: audience mismatch") := by
  have h := all_bindings_fail_error_aggregated azAllFailFix 0 reqFix [65]
    ["binding one: bad signature", "binding two: audience mismatch"]
    rfl (by decide) rfl
    (List.Forall₂.cons rfl (List.Forall₂.cons rfl List.Forall₂.nil))
  simpa using h

/-! ### Expiry characterization (claims mapper) -/

theorem applyAttribute_ExpiresAt (now : Int) (c : UserClaims) (attr : SamlAttribute)
    (acc : Option Int) (h : c.ExpiresAt = now + acc.elim 900 msdOffset) :
    (applyAttribute now c attr).ExpiresAt =
      now + (msdUpdate acc attr).elim 900 msdOffset := by
  unfold applyAttribute msdUpdate
  cases hv : attr.Values with
  | nil => simpa using h
  | cons v vs =>
    cases hmsd : hasSuffix attr.Name "Attributes/MaxSessionDuration" with
    | true => cases hato : atoi v.Value <;> simp [hmsd, hato, h, msdOffset]
    | false =>
      simp only [hmsd, Bool.false_eq_true, if_false]
      split_ifs <;> simp [h]

theorem foldl_applyAttribute_ExpiresAt (now : Int) :
    ∀ (attrs : List SamlAttribute) (c : UserClaims) (acc : Option Int),
      c.ExpiresAt = now + acc.elim 900 msdOffset →
      (attrs.foldl (applyAttribute now) c).ExpiresAt =
        now + (attrs.foldl msdUpdate acc).elim 900 msdOffset := by
  intro attrs
  induction attrs with
  | nil => intro c acc h; simpa using h
  | cons hd tl ih =>
    intro c acc h
    exact ih (applyAttribute now c hd) (msdUpdate acc hd)
      (applyAttribute_ExpiresAt now c hd acc h)

theorem buildClaims_eq_foldl (now : Int) (a : Assertion) :
    buildClaims now a = (allAttrs a).foldl (applyAttribute now) (initClaims now) := by
  unfold buildClaims allAttrs
  rw [List.foldl_flatten, List.foldl_map]

theorem buildClaims_ExpiresAt (now : Int) (a : Assertion) :
    (buildClaims now a).ExpiresAt =
      now + ((allAttrs a).foldl msdUpdate none).elim 900 msdOffset := by
  rw [buildClaims_eq_foldl]
  exact foldl_applyAttribute_ExpiresAt now (allAttrs a) (initClaims now) none rfl

theorem foldl_msdUpdate_neutral :
    ∀ (attrs : List SamlAttribute),
      (∀ attr ∈ attrs, ∀ acc, msdUpdate acc attr = acc) →
      ∀ acc, attrs.foldl msdUpdate acc = acc := by
  intro attrs
  induction attrs with
  | nil => intro _ acc; rfl
  | cons hd tl ih =>
    intro h acc
    simp only [List.foldl_cons, h hd (by simp)]
    exact ih (fun attr ha => h attr (by simp [ha])) acc

theorem wrapInt64_eq_self (x : Int) (h1 : -(2 ^ 63) ≤ x) (h2 : x < 2 ^ 63) :
    wrapInt64 x = x := by
  unfold wrapInt64
  have h0 : (0 : Int) ≤ x + 2 ^ 63 := by linarith
  have hlt : x + 2 ^ 63 < 2 ^ 64 := by
    have h64 : (2 : Int) ^ 64 = 2 ^ 63 + 2 ^ 63 := by norm_num
    linarith
  rw [Int.emod_eq_of_lt h0 hlt]
  ring

theorem msdOffset_eq_self (n : Int) (h1 : -9223372036 ≤ n) (h2 : n ≤ 9223372036) :
    msdOffset n = n := by
  unfold msdOffset durationOfSeconds durationAddSeconds
  rw [wrapInt64_eq_self]
  · exact Int.mul_ediv_cancel n (by norm_num)
  · nlinarith
  · nlinarith

/-- Counterexample for C5 as originally stated: `MaxSessionDuration = 10^10`
is numeric, yet the expiry is not issuance time plus `10^10` seconds — the
int64 nanosecond multiplication wraps and the expiry lands far in the past;
and `MaxSessionDuration = 2^63` (one past the int64 maximum) fails
`strconv.Atoi` with a range error, so the attribute is skipped and the
900-second default survives instead of an override. -/
theorem msd_overflow_cex :
    (buildClaims 0 assertionMSDHuge).ExpiresAt = -8446744074 ∧
    ((-8446744074 : Int) ≠ 0 + 10000000000) ∧
    atoi "9223372036854775808" = none ∧
    (buildClaims 0 assertionMSDRange).ExpiresAt = 0 + 900 ∧
    ((0 : Int) + 900 ≠ 0 + 9223372036854775808) := by
  refine ⟨by decide, by decide, by decide, by decide, by decide⟩

/-- C5 (amended): for every parsed assertion, the claims expiry starts at
issuance time plus 900 seconds (and stays there when no `MaxSessionDuration`
attribute with values occurs); a `MaxSessionDuration` attribute whose first
value parses as an in-range 64-bit integer `n` (and is not followed by
another such attribute) overrides the expiry to issuance time plus the
seconds of the Go duration `time.Duration(n) * time.Second` — exactly `n`
seconds whenever `|n| ≤ 9223372036`, while larger in-range multipliers wrap
the int64 nanosecond product and generally land elsewhere; a value that is
non-numeric or outside the int64 range fails `strconv.Atoi`, is skipped
without failing the scan, and leaves the 900-second default. -/
theorem claims_expiry_policy (now : Int) (a : Assertion) :
    ((∀ attr ∈ allAttrs a,
        attr.Values = [] ∨
          hasSuffix attr.Name "Attributes/MaxSessionDuration" = false) →
      (buildClaims now a).ExpiresAt = now + 900) ∧
    (∀ (pre post : List SamlAttribute) (attr : SamlAttribute) (v : AttributeValue)
        (vs : List AttributeValue) (n : Int),
      allAttrs a = pre ++ attr :: post →
      attr.Values = v :: vs →
      hasSuffix attr.Name "Attributes/MaxSessionDuration" = true →
      atoi v.Value = some n →
      (∀ b ∈ post,
        b.Values = [] ∨ hasSuffix b.Name "Attributes/MaxSessionDuration" = false) →
      (buildClaims now a).ExpiresAt = now + msdOffset n ∧
        (-9223372036 ≤ n → n ≤ 9223372036 →
          (buildClaims now a).ExpiresAt = now + n)) ∧
    ((∀ attr ∈ allAttrs a,
        hasSuffix attr.Name "Attributes/MaxSessionDuration" = true →
        ∀ v vs, attr.Values = v :: vs → atoi v.Value = none) →
      (buildClaims now a).ExpiresAt = now + 900) := by
  refine ⟨?_, ?_, ?_⟩
  · intro hnone
    rw [buildClaims_ExpiresAt]
    rw [foldl_msdUpdate_neutral (allAttrs a) ?_ none]
    · rfl
    · intro attr ha acc
      rcases hnone attr ha with hv | hs
      · unfold msdUpdate; rw [hv]
      · unfold msdUpdate
        cases hv : attr.Values with
        | nil => rfl
        | cons v vs => simp [hs]
  · intro pre post attr v vs n hsplit hv hs hn hpost
    have hoff : (buildClaims now a).ExpiresAt = now + msdOffset n := by
      rw [buildClaims_ExpiresAt, hsplit]
      rw [List.foldl_append, List.foldl_cons]
      have hattr : msdUpdate (pre.foldl msdUpdate none) attr = some n := by
        unfold msdUpdate
        rw [hv]
        simp [hs, hn]
      rw [hattr]
      rw [foldl_msdUpdate_neutral post ?_ (some n)]
      · rfl
      · intro b hb acc
        rcases hpost b hb with hbv | hbs
        · unfold msdUpdate; rw [hbv]
        · unfold msdUpdate
          cases hbv : b.Values with
          | nil => rfl
          | cons w ws => simp [hbs]
    refine ⟨hoff, ?_⟩
    intro hlo hhi
    rw [hoff, msdOffset_eq_self n hlo hhi]
  · intro hnn
    rw [buildClaims_ExpiresAt]
    rw [foldl_msdUpdate_neutral (allAttrs a) ?_ none]
    · rfl
    · intro attr ha acc
      unfold msdUpdate
      cases hv : attr.Values with
      | nil => rfl
      | cons v vs =>
        cases hmsd : hasSuffix attr.Name "Attributes/MaxSessionDuration" with
        | false => simp [hmsd]
        | true => simp [hmsd, hnn attr ha hmsd v vs hv]

/-- Witness for the amended C5: a numeric, non-overflowing
`MaxSessionDuration = 3600` overrides the default and the claims expire at
issuance time plus 3600 seconds. -/
theorem claims_expiry_policy_witness :
    (buildClaims 0 assertionMSD).ExpiresAt = 0 + 3600 := by
  refine ((claims_expiry_policy 0 assertionMSD).2.1 []
    [] { Name := "http://x/Attributes/MaxSessionDuration", Values := [{ Value := "3600" }] }
    { Value := "3600" } [] 3600 rfl rfl (by decide) (by decide) ?_).2 (by decide) (by decide)
  intro b hb
  simp at hb

/-- C6: for every successfully parsed assertion whose scanned claims end up
with an empty email or an empty name, the pipeline fails with the
"mandatory attributes not found" validation error (carrying the partially
built claims), so no token is issued. -/
theorem mandatory_attributes_enforced (az : AzureIdp) (now : Int) (a : Assertion)
    (h : (buildClaims now a).Email = "" ∨ (buildClaims now a).Name = "") :
    processAssertion az now a =
      Except.error
        ("The Azure AD authorization failed, mandatory attributes not found: " ++
          claimsFmt (buildClaims now a)) := by
  unfold processAssertion
  rw [if_pos h]

/-- Witness for C6: the no-email assertion is rejected with the mandatory
attribute error even though name and roles are populated. -/
theorem mandatory_attributes_enforced_witness :
    processAssertion azFix 0 assertionNoEmail =
      Except.error
        ("The Azure AD authorization failed, mandatory attributes not found: " ++
          claimsFmt (buildClaims 0 assertionNoEmail)) :=
  mandatory_attributes_enforced azFix 0 assertionNoEmail (Or.inl rfl)

/-! ### Suffix disjointness (recognized attribute URIs) -/

theorem hasSuffix_excl (name s1 s2 : String)
    (h12 : decide (s1.data <:+ s2.data) = false)
    (h21 : decide (s2.data <:+ s1.data) = false)
    (h1 : hasSuffix name s1 = true) : hasSuffix name s2 = false := by
  cases h2 : hasSuffix name s2 with
  | false => rfl
  | true =>
    unfold hasSuffix at h1 h2
    rcases List.suffix_or_suffix_of_suffix (of_decide_eq_true h1) (of_decide_eq_true h2)
      with h | h
    · rw [decide_eq_true h] at h12; cases h12
    · rw [decide_eq_true h] at h21; cases h21

/-- C10: an attribute whose name matches one of the five single-valued
suffixes produces the same claims whatever values follow the first one
(the remaining values are silently ignored), while an attribute matching
the `Attributes/Role` suffix appends every one of its values to the role
list. -/
theorem single_valued_attrs_vs_role (now : Int) (c : UserClaims) (name : String)
    (v : AttributeValue) (vs : List AttributeValue) :
    ((∃ s ∈ singleValuedSuffixes, hasSuffix name s = true) →
      ∀ vs', applyAttribute now c { Name := name, Values := v :: vs } =
        applyAttribute now c { Name := name, Values := v :: vs' }) ∧
    (hasSuffix name "Attributes/Role" = true →
      applyAttribute now c { Name := name, Values := v :: vs } =
        { c with Roles := c.Roles ++ (v :: vs).map (fun w => w.Value) }) := by
  constructor
  · rintro ⟨s, hsmem, hs⟩ vs'
    unfold applyAttribute
    simp only
    cases h1 : hasSuffix name "Attributes/MaxSessionDuration" with
    | true => cases atoi v.Value <;> simp [h1]
    | false =>
    cases h2 : hasSuffix name "identity/claims/displayname" with
    | true => simp [h1, h2]
    | false =>
    cases h3 : hasSuffix name "identity/claims/emailaddress" with
    | true => simp [h1, h2, h3]
    | false =>
    cases h4 : hasSuffix name "identity/claims/identityprovider" with
    | true => simp [h1, h2, h3, h4]
    | false =>
    cases h5 : hasSuffix name "identity/claims/name" with
    | true => simp [h1, h2, h3, h4, h5]
    | false =>
      exfalso
      simp only [singleValuedSuffixes, List.mem_cons, List.mem_singleton] at hsmem
      rcases hsmem with rfl | rfl | rfl | rfl | rfl | h
      · exact absurd hs (by simp [h1])
      · exact absurd hs (by simp [h2])
      · exact absurd hs (by simp [h3])
      · exact absurd hs (by simp [h4])
      · exact absurd hs (by simp [h5])
      · simp at h
  · intro hrole
    have h1 := hasSuffix_excl name "Attributes/Role" "Attributes/MaxSessionDuration"
      (by decide) (by decide) hrole
    have h2 := hasSuffix_excl name "Attributes/Role" "identity/claims/displayname"
      (by decide) (by decide) hrole
    have h3 := hasSuffix_excl name "Attributes/Role" "identity/claims/emailaddress"
      (by decide) (by decide) hrole
    have h4 := hasSuffix_excl name "Attributes/Role" "identity/claims/identityprovider"
      (by decide) (by decide) hrole
    have h5 := hasSuffix_excl name "Attributes/Role" "identity/claims/name"
      (by decide) (by decide) hrole
    unfold applyAttribute
    simp [h1, h2, h3, h4, h5, hrole]

/-- Witness for C10: a `displayname` attribute ignores its second value,
and a `Role` attribute consumes both of its values. -/
theorem single_valued_attrs_vs_role_witness :
    applyAttribute 0 (initClaims 0)
        { Name := "http://x/identity/claims/displayname"
          Values := [{ Value := "Jane" }, { Value := "Ignored" }] } =
      applyAttribute 0 (initClaims 0)
        { Name := "http://x/identity/claims/displayname"
          Values := [{ Value := "Jane" }] } ∧
    applyAttribute 0 (initClaims 0)
        { Name := "http://x/Attributes/Role"
          Values := [{ Value := "admin" }, { Value := "user" }] } =
      { initClaims 0 with
          Roles :=
            (initClaims 0).Roles ++
              ([{ Value := "admin" }, { Value := "user" }] : List AttributeValue).map
                (fun w => w.Value) } := by
  constructor
  · exact (single_valued_attrs_vs_role 0 (initClaims 0)
      "http://x/identity/claims/displayname" { Value := "Jane" } [{ Value := "Ignored" }]).1
      ⟨"identity/claims/displayname", by simp [singleValuedSuffixes], by decide⟩ []
  · exact (single_valued_attrs_vs_role 0 (initClaims 0)
      "http://x/Attributes/Role" { Value := "admin" } [{ Value := "user" }]).2
      (by decide)

/-- C7: a request whose content type is not the form encoding, or whose
`SAMLResponse` form field is absent (empty), makes the validator fail with
one of the two protocol error messages before any binding is consulted (the
same error results for every bindings list), and the orchestrator's overall
outcome is a rejection with the empty identity. -/
theorem protocol_errors_reject_before_bindings (m : AuthProvider) (az : AzureIdp)
    (now : Int) (r : HttpRequest)
    (haz : m.Azure = some az)
    (hbad : r.ContentTypeHeader ≠ "application/x-www-form-urlencoded" ∨
      r.SAMLResponseForm = "") :
    (∃ msg, (msg = msgWrongContentType ∨ msg = msgNoSAMLResponse) ∧
      az.Authenticate now r = Except.error msg ∧
      (∀ sps, AzureIdp.Authenticate { az with ServiceProviders := sps } now r =
        Except.error msg)) ∧
    (∃ d, m.Authenticate now r = some d ∧ d.ok = false ∧
      d.user = { ID := "", Metadata := [] }) := by
  have herr : ∃ msg, (msg = msgWrongContentType ∨ msg = msgNoSAMLResponse) ∧
      az.Authenticate now r = Except.error msg ∧
      (∀ sps, AzureIdp.Authenticate { az with ServiceProviders := sps } now r =
        Except.error msg) := by
    by_cases hct : r.ContentTypeHeader = "application/x-www-form-urlencoded"
    · have hsr : r.SAMLResponseForm = "" := by
        rcases hbad with h | h
        · exact absurd hct h
        · exact h
      refine ⟨msgNoSAMLResponse, Or.inr rfl, ?_, ?_⟩
      · unfold AzureIdp.Authenticate
        rw [if_neg (by simp [hct]), if_pos hsr]
      · intro sps
        unfold AzureIdp.Authenticate
        rw [if_neg (by simp [hct]), if_pos hsr]
    · have hct' : r.ContentTypeHeader ≠ "application/x-www-form-urlencoded" := hct
      refine ⟨msgWrongContentType, Or.inl rfl, ?_, ?_⟩
      · unfold AzureIdp.Authenticate
        rw [if_pos hct']
      · intro sps
        unfold AzureIdp.Authenticate
        rw [if_pos hct']
  refine ⟨herr, ?_⟩
  obtain ⟨msg, _, herr2, _⟩ := herr
  unfold AuthProvider.Authenticate
  by_cases helig : r.Method = "POST" ∧
      (containsSub r.OriginHeader "login.microsoftonline.com" ∨
        containsSub r.RefererHeader "windowsazure.com")
  · rw [if_pos helig, haz]
    dsimp only
    rw [herr2]
    exact ⟨_, rfl, rfl, rfl⟩
  · rw [if_neg helig]
    exact ⟨_, rfl, rfl, rfl⟩

/-- Witness for C7: with the Azure provider configured, a request with a
`text/plain` content type is rejected before any binding runs. -/
theorem protocol_errors_reject_before_bindings_witness :
    (∃ msg, (msg = msgWrongContentType ∨ msg = msgNoSAMLResponse) ∧
      azFix.Authenticate 0 reqBadCTFix = Except.error msg ∧
      (∀ sps, AzureIdp.Authenticate { azFix with ServiceProviders := sps } 0 reqBadCTFix =
        Except.error msg)) ∧
    (∃ d, mFix.Authenticate 0 reqBadCTFix = some d ∧ d.ok = false ∧
      d.user = { ID := "", Metadata := [] }) :=
  protocol_errors_reject_before_bindings mFix azFix 0 reqBadCTFix rfl
    (Or.inl (by decide))

/-- C8: a POST request whose Origin does not contain the Microsoft login
hostname and whose Referer does not contain the Azure hostname renders the
login form with the untouched (empty-message) UI arguments and yields the
rejected outcome with the empty identity, without ever invoking the Azure
assertion pipeline: the decision is the same for every Azure configuration,
including none at all. -/
theorem non_idp_post_rejected (m : AuthProvider) (now : Int) (r : HttpRequest)
    (hm : r.Method = "POST")
    (ho : containsSub r.OriginHeader "login.microsoftonline.com" = false)
    (hr : containsSub r.RefererHeader "windowsazure.com" = false) :
    m.Authenticate now r =
      some
        { rendered := m.UI.newUserInterfaceArgs
          user := { ID := "", Metadata := [] }
          ok := false
          authorizationHeader := none
          wwwAuthenticateHeader := some "Bearer" } ∧
    (∀ az', AuthProvider.Authenticate { m with Azure := az' } now r =
      m.Authenticate now r) := by
  have hcond : ¬(r.Method = "POST" ∧
      (containsSub r.OriginHeader "login.microsoftonline.com" ∨
        containsSub r.RefererHeader "windowsazure.com")) := by
    rintro ⟨-, h | h⟩
    · rw [ho] at h; cases h
    · rw [hr] at h; cases h
  constructor
  · unfold AuthProvider.Authenticate
    rw [if_neg hcond]
  · intro az'
    unfold AuthProvider.Authenticate
    rw [if_neg hcond, if_neg hcond]

/-- Witness for C8: a POST from a non-IdP origin is rejected with the plain
login form and an unused assertion pipeline. -/
theorem non_idp_post_rejected_witness :
    mFix.Authenticate 0 reqWrongOriginFix =
      some
        { rendered := mFix.UI.newUserInterfaceArgs
          user := { ID := "", Metadata := [] }
          ok := false
          authorizationHeader := none
          wwwAuthenticateHeader := some "Bearer" } ∧
    (∀ az', AuthProvider.Authenticate { mFix with Azure := az' } 0 reqWrongOriginFix =
      mFix.Authenticate 0 reqWrongOriginFix) :=
  non_idp_post_rejected mFix 0 reqWrongOriginFix rfl (by decide) (by decide)

/-! ### Which key reaches the signer -/

theorem processAssertion_ok_token (az : AzureIdp) (now : Int) (a : Assertion)
    (u : CaddyUser) (tok : String)
    (h : processAssertion az now a = Except.ok (u, tok)) :
    ∃ c, tok = hs512Token c az.Jwt.TokenSecret := by
  unfold processAssertion at h
  by_cases hmand : (buildClaims now a).Email = "" ∨ (buildClaims now a).Name = ""
  · rw [if_pos hmand] at h; cases h
  · rw [if_neg hmand] at h
    dsimp only [jwtSignedString] at h
    obtain ⟨-, htok⟩ := Prod.mk.injEq .. ▸ Except.ok.inj h
    exact ⟨_, htok.symm⟩

theorem authLoop_ok_token (az : AzureIdp) (now : Int) (raw : List Nat) :
    ∀ (sps : List ServiceProvider) (errs : List String) (u : CaddyUser) (tok : String),
      authLoop az now raw sps errs = Except.ok (u, tok) →
      ∃ c, tok = hs512Token c az.Jwt.TokenSecret := by
  intro sps
  induction sps with
  | nil => intro errs u tok h; cases h
  | cons sp rest ih =>
    intro errs u tok h
    unfold authLoop at h
    cases hp : sp.ParseXMLResponse raw [""] with
    | error e => rw [hp] at h; exact ih (errs ++ [e]) u tok h
    | ok a => rw [hp] at h; exact processAssertion_ok_token az now a u tok h

theorem authenticate_ok_token (az : AzureIdp) (now : Int) (r : HttpRequest)
    (u : CaddyUser) (tok : String)
    (h : az.Authenticate now r = Except.ok (u, tok)) :
    ∃ c, tok = hs512Token c az.Jwt.TokenSecret := by
  unfold AzureIdp.Authenticate at h
  by_cases hct : r.ContentTypeHeader ≠ "application/x-www-form-urlencoded"
  · rw [if_pos hct] at h; cases h
  · rw [if_neg hct] at h
    by_cases hsr : r.SAMLResponseForm = ""
    · rw [if_pos hsr] at h; cases h
    · rw [if_neg hsr] at h
      cases hdec : base64Decode r.SAMLResponseForm with
      | none => rw [hdec] at h; cases h
      | some raw => rw [hdec] at h; exact authLoop_ok_token az now raw _ [] u tok h

/-! ### Shape of a successful Azure configuration validation -/

theorem azureValidate_ok_shape (env : ValidateEnv) (az az' : AzureIdp)
    (hok : AzureIdp.Validate env az = Except.ok az') :
    az'.Jwt = az.Jwt ∧
    az'.EntityID = az.EntityID ∧
    az'.IdpMetadataLocation =
      (if az.IdpMetadataLocation = "" then defaultMetadataLocation az.TenantID
       else az.IdpMetadataLocation) ∧
    (az'.IdpMetadataURL =
      if strStartsWith az'.IdpMetadataLocation "http" then some az'.IdpMetadataLocation
      else az.IdpMetadataURL) ∧
    ∀ sp ∈ az'.ServiceProviders.drop az.ServiceProviders.length,
      sp.MetadataURL =
        match az'.IdpMetadataURL with
        | some u => u
        | none => az.EntityID := by
  by_cases h1 : az.AssertionConsumerServiceURLs.length = 0
  · simp only [AzureIdp.Validate, if_pos h1] at hok; cases hok
  by_cases h2 : az.TenantID = ""
  · simp only [AzureIdp.Validate, if_neg h1, if_pos h2] at hok; cases hok
  by_cases h3 : az.ApplicationID = ""
  · simp only [AzureIdp.Validate, if_neg h1, if_neg h2, if_pos h3] at hok; cases hok
  by_cases h4 : az.ApplicationName = ""
  · simp only [AzureIdp.Validate, if_neg h1, if_neg h2, if_neg h3, if_pos h4] at hok
    cases hok
  simp only [AzureIdp.Validate, if_neg h1, if_neg h2, if_neg h3, if_neg h4] at hok
  by_cases hloc : az.IdpMetadataLocation = ""
  · simp only [if_pos hloc] at hok
    by_cases hcert : az.IdpSignCertLocation = ""
    · simp only [if_pos hcert] at hok; cases hok
    simp only [if_neg hcert] at hok
    cases hrc : env.readCertFile az.IdpSignCertLocation with
    | error e => simp only [hrc] at hok; cases hok
    | ok cert =>
      simp only [hrc] at hok
      by_cases hhttp : strStartsWith (defaultMetadataLocation az.TenantID) "http"
      · simp only [if_pos hhttp] at hok
        cases hfm : env.fetchMetadata (defaultMetadataLocation az.TenantID) with
        | error e => simp only [hfm] at hok; cases hok
        | ok md =>
          simp only [hfm] at hok
          have hsub := Except.ok.inj hok
          subst hsub
          refine ⟨by simp, by simp, by simp [hloc], by simp [hhttp], ?_⟩
          intro sp hsp
          simp only [List.drop_left] at hsp
          obtain ⟨acs, hacs, rfl⟩ := List.mem_map.1 hsp
          simp [buildSP]
      · simp only [if_neg hhttp] at hok
        cases hrf : env.readFile (defaultMetadataLocation az.TenantID) with
        | error e => simp only [hrf] at hok; cases hok
        | ok content =>
          simp only [hrf] at hok
          cases hpm : env.parseMetadata content with
          | error e => simp only [hpm] at hok; cases hok
          | ok md =>
            simp only [hpm] at hok
            have hsub := Except.ok.inj hok
            subst hsub
            refine ⟨by simp, by simp, by simp [hloc], by simp [hhttp], ?_⟩
            intro sp hsp
            simp only [List.drop_left] at hsp
            obtain ⟨acs, hacs, rfl⟩ := List.mem_map.1 hsp
            cases hmu : az.IdpMetadataURL <;> simp [buildSP, hmu]
  · simp only [if_neg hloc] at hok
    by_cases hcert : az.IdpSignCertLocation = ""
    · simp only [if_pos hcert] at hok; cases hok
    simp only [if_neg hcert] at hok
    cases hrc : env.readCertFile az.IdpSignCertLocation with
    | error e => simp only [hrc] at hok; cases hok
    | ok cert =>
      simp only [hrc] at hok
      by_cases hhttp : strStartsWith az.IdpMetadataLocation "http"
      · simp only [if_pos hhttp] at hok
        cases hfm : env.fetchMetadata az.IdpMetadataLocation with
        | error e => simp only [hfm] at hok; cases hok
        | ok md =>
          simp only [hfm] at hok
          have hsub := Except.ok.inj hok
          subst hsub
          refine ⟨by simp, by simp, by simp [hloc], by simp [hhttp], ?_⟩
          intro sp hsp
          simp only [List.drop_left] at hsp
          obtain ⟨acs, hacs, rfl⟩ := List.mem_map.1 hsp
          simp [buildSP]
      · simp only [if_neg hhttp] at hok
        cases hrf : env.readFile az.IdpMetadataLocation with
        | error e => simp only [hrf] at hok; cases hok
        | ok content =>
          simp only [hrf] at hok
          cases hpm : env.parseMetadata content with
          | error e => simp only [hpm] at hok; cases hok
          | ok md =>
            simp only [hpm] at hok
            have hsub := Except.ok.inj hok
            subst hsub
            refine ⟨by simp, by simp, by simp [hloc], by simp [hhttp], ?_⟩
            intro sp hsp
            simp only [List.drop_left] at hsp
            obtain ⟨acs, hacs, rfl⟩ := List.mem_map.1 hsp
            cases hmu : az.IdpMetadataURL <;> simp [buildSP, hmu]

theorem authProviderValidate_ok_azure (env : ValidateEnv) (m m' : AuthProvider)
    (hok : AuthProvider.Validate env m = Except.ok m') :
    ∃ az', m'.Azure = some az' ∧ az'.Jwt.TokenSecret = m.Jwt.TokenSecret := by
  unfold AuthProvider.Validate at hok
  split at hok
  · cases hok
  by_cases hname : m.Jwt.TokenName = ""
  · simp only [if_pos hname] at hok
    by_cases hiss : m.Jwt.TokenIssuer = ""
    · simp only [if_pos hiss] at hok
      iterate 8 (all_goals try split at hok)
      all_goals try cases hok
      all_goals rename_i x2 az0 heq2 x1 az1 heqv x0 ui0 hequi
      all_goals exact ⟨az1, rfl, by rw [(azureValidate_ok_shape env _ _ heqv).1]⟩
    · simp only [if_neg hiss] at hok
      iterate 8 (all_goals try split at hok)
      all_goals try cases hok
      all_goals rename_i x2 az0 heq2 x1 az1 heqv x0 ui0 hequi
      all_goals exact ⟨az1, rfl, by rw [(azureValidate_ok_shape env _ _ heqv).1]⟩
  · simp only [if_neg hname] at hok
    by_cases hiss : m.Jwt.TokenIssuer = ""
    · simp only [if_pos hiss] at hok
      iterate 8 (all_goals try split at hok)
      all_goals try cases hok
      all_goals rename_i x2 az0 heq2 x1 az1 heqv x0 ui0 hequi
      all_goals exact ⟨az1, rfl, by rw [(azureValidate_ok_shape env _ _ heqv).1]⟩
    · simp only [if_neg hiss] at hok
      iterate 8 (all_goals try split at hok)
      all_goals try cases hok
      all_goals rename_i x2 az0 heq2 x1 az1 heqv x0 ui0 hequi
      all_goals exact ⟨az1, rfl, by rw [(azureValidate_ok_shape env _ _ heqv).1]⟩

/-- C9: when the configured `jwt.token_secret` is empty but the
`JWT_TOKEN_SECRET` environment variable is non-empty, configuration
validation succeeds (the witness exhibits a complete successful run), yet
the validated Azure configuration still carries the empty token secret and
every token issued by its authentication path is signed with the empty
string as HMAC key — the environment variable is never consulted on the
signing path. -/
theorem env_secret_never_used_for_signing (env : ValidateEnv) (m m' : AuthProvider)
    (hsec : m.Jwt.TokenSecret = "")
    (henv : env.getenv "JWT_TOKEN_SECRET" ≠ "")
    (hok : AuthProvider.Validate env m = Except.ok m') :
    ∃ az', m'.Azure = some az' ∧ az'.Jwt.TokenSecret = "" ∧
      ∀ (now : Int) (r : HttpRequest) (u : CaddyUser) (tok : String),
        az'.Authenticate now r = Except.ok (u, tok) →
        ∃ c, tok = hs512Token c "" := by
  obtain ⟨az', hmaz, hs⟩ := authProviderValidate_ok_azure env m m' hok
  refine ⟨az', hmaz, by rw [hs, hsec], ?_⟩
  intro now r u tok h
  have htok := authenticate_ok_token az' now r u tok h
  rwa [hs, hsec] at htok

/-- Witness for C9: the concrete empty-secret configuration validates
successfully in the concrete environment whose `JWT_TOKEN_SECRET` is
`"env-secret"`, and every issued token is keyed with `""`. -/
theorem env_secret_never_used_for_signing_witness :
    ∃ az', mEnvSecretOk.Azure = some az' ∧ az'.Jwt.TokenSecret = "" ∧
      ∀ (now : Int) (r : HttpRequest) (u : CaddyUser) (tok : String),
        az'.Authenticate now r = Except.ok (u, tok) →
        ∃ c, tok = hs512Token c "" :=
  env_secret_never_used_for_signing envFix mEnvSecretFix mEnvSecretOk rfl
    (by decide) rfl

/-- Counterexample for C4: with an explicitly configured entity ID
(`https://sp.example.com`) and an HTTP metadata location, the constructed
binding's metadata/entity URL is the fetched IdP metadata URL, not the
configured entity ID — the explicit entity ID does not take priority. -/
theorem entity_id_not_prioritized_cex :
    azEntityFix.EntityID = "https://sp.example.com" ∧
    azEntityFix.EntityID ≠ "" ∧
    (AzureIdp.Validate envFix azEntityFix).map
        (fun a => a.ServiceProviders.map (fun sp => sp.MetadataURL)) =
      Except.ok ["https://idp.example.com/md.xml"] ∧
    ("https://idp.example.com/md.xml" : String) ≠ "https://sp.example.com" :=
  ⟨rfl, by decide, rfl, by decide⟩

/-- C4 (amended): when each service-provider binding is constructed, its
metadata/entity URL is set to the IdP metadata location whenever that
location is an HTTP(S) URL (the fetched metadata URL takes priority), and
the explicitly configured entity ID is used only when the metadata was
loaded from a local file. -/
theorem sp_metadata_url_prefers_idp_url (env : ValidateEnv) (az az' : AzureIdp)
    (hpre : az.ServiceProviders = [])
    (hmu0 : az.IdpMetadataURL = none)
    (hok : AzureIdp.Validate env az = Except.ok az') :
    ∀ sp ∈ az'.ServiceProviders,
      sp.MetadataURL =
        if strStartsWith az'.IdpMetadataLocation "http" then az'.IdpMetadataLocation
        else az.EntityID := by
  intro sp hsp
  obtain ⟨-, -, -, hmu, hsps⟩ := azureValidate_ok_shape env az az' hok
  have hsp' : sp ∈ az'.ServiceProviders.drop az.ServiceProviders.length := by
    rw [hpre]
    simpa using hsp
  have hval := hsps sp hsp'
  rw [hval, hmu, hmu0]
  cases hhttp : strStartsWith az'.IdpMetadataLocation "http" <;> simp [hhttp]

/-- Witness for the amended C4: the single binding built from `azEntityFix`
carries the fetched metadata URL. -/
theorem sp_metadata_url_prefers_idp_url_witness :
    azEntityOk.ServiceProviders.headI.MetadataURL = "https://idp.example.com/md.xml" := by
  have hrep : azEntityOk.ServiceProviders = [azEntityOk.ServiceProviders.headI] := rfl
  have hm : azEntityOk.ServiceProviders.headI ∈ azEntityOk.ServiceProviders := by
    rw [hrep]
    exact List.mem_singleton_self _
  have h := sp_metadata_url_prefers_idp_url envFix azEntityFix azEntityOk rfl rfl rfl
    azEntityOk.ServiceProviders.headI hm
  rw [h]
  rfl

/-- C3 (code evidence): with the configured token secret empty, token
issuance does not fail — the signing path succeeds and returns a token
whose HMAC key is the empty string. -/
theorem empty_secret_still_signs :
    azEmptySecretFix.Authenticate 0 reqFix =
      Except.ok
        ({ ID := "a@b.com"
           Metadata := [("name", "Jane"), ("email", "a@b.com"), ("roles", "admin user")] },
          hs512Token
            { ExpiresAt := 900, Name := "Jane", Email := "a@b.com", Origin := ""
              Subject := "", Roles := ["admin", "user"], Issuer := "localhost" } "") := rfl
